import Mathlib

/-!
Verification of the Rhum test runner (src/mod.ts) against its specification.

The plan builder (`RhumRunner`) is embedded shallowly: the mutable fields of
the `RhumRunner` class become a `RunnerState` record, each public method
becomes a function from `RunnerState` to a result, and JavaScript exceptions
(the `TypeError` thrown when an undefined suite record is dereferenced)
become an explicit `Res.err` constructor that carries the state at the time
of the throw, since a JS exception leaves the heap as it was.

Callbacks and test functions are identified by reference; we model a function
reference as an opaque identifier (`Func := Nat`), so that "stores the exact
function object" becomes equality of identifiers.

JavaScript string truthiness (`if (this.passed_in_test_plan)`) is the test
`s != ""`.  The `suites` object is an association list with JS object-key
semantics for non-index string keys: assignment to an existing key replaces
the value in place, a new key is appended, preserving insertion order.
-/

namespace Rhum

/-- A function reference; reference equality is identifier equality. -/
abbrev Func := Nat

/-- One entry of a suite's `cases` array: `{ name, new_name, testFn }`. -/
structure CaseRecord where
  name : String
  new_name : String
  testFn : Func
deriving DecidableEq, Repr

/-- One suite record of `IPlan.suites` (src/mod.ts:57-69).  The `cases` field
is declared optional in the TypeScript interface but every record the code
creates has it set (src/mod.ts:315-321), so it is total here. -/
structure SuiteRecord where
  cases : List CaseRecord
  after_all_case_hook : Option Func
  after_each_case_hook : Option Func
  before_all_case_hook : Option Func
  before_each_case_hook : Option Func
deriving DecidableEq, Repr

/-- The plan document `IPlan` (src/mod.ts:57-75). -/
structure IPlan where
  suites : List (String × SuiteRecord)
  after_all_suite_hook : Option Func
  after_each_suite_hook : Option Func
  before_all_suite_hook : Option Func
  before_each_suite_hook : Option Func
deriving DecidableEq, Repr

/-- The mutable fields of the `RhumRunner` class (src/mod.ts:128-138). -/
structure RunnerState where
  passed_in_test_plan : String
  passed_in_test_suite : String
  test_plan_in_progress : String
  test_suite_in_progress : String
  plan : IPlan
deriving DecidableEq, Repr

/-- The empty plan document, as initialized at src/mod.ts:132-138. -/
def emptyPlan : IPlan :=
  { suites := []
    after_all_suite_hook := none
    after_each_suite_hook := none
    before_all_suite_hook := none
    before_each_suite_hook := none }

/-- The initial state of a fresh `RhumRunner`. -/
def initState : RunnerState :=
  { passed_in_test_plan := ""
    passed_in_test_suite := ""
    test_plan_in_progress := ""
    test_suite_in_progress := ""
    plan := emptyPlan }

/-- JS object property read `suites[k]`: `some` the record, or `none` when the
property is absent (JS `undefined`). -/
def lookupSuite (m : List (String × SuiteRecord)) (k : String) :
    Option SuiteRecord :=
  (m.find? (fun p => p.1 == k)).map Prod.snd

/-- JS object property write `suites[k] = v`: replaces the value in place when
the key exists (keeping its position in insertion order), otherwise appends. -/
def setSuite (m : List (String × SuiteRecord)) (k : String) (v : SuiteRecord) :
    List (String × SuiteRecord) :=
  if m.any (fun p => p.1 == k) then
    m.map (fun p => if p.1 == k then (k, v) else p)
  else
    m ++ [(k, v)]

/-- Result of a builder call: normal return, or a thrown JS exception.  The
exception carries the state at throw time, because a JS `throw` does not roll
back heap mutations. -/
inductive Res where
  | ok (s : RunnerState)
  | err (msg : String) (s : RunnerState)
deriving DecidableEq, Repr

/-- The state carried by a result, whether it returned or threw. -/
def Res.state : Res → RunnerState
  | .ok s => s
  | .err _ s => s

/-- The constant 10 at src/mod.ts:84, the number of extra erase characters. -/
def extraChars : Nat := 10

/-- A string of `n` copies of character `c`, modelling JS `c.repeat(n)`. -/
def repeatChar (c : Char) (n : Nat) : String :=
  String.mk (List.replicate n c)

/-- Model of `RhumRunner.formatTestCaseName` (src/mod.ts:344-368).  Reads the cursor
fields `passed_in_test_plan` / `passed_in_test_suite`, updates the
`..._in_progress` fields, and returns the annotated case name.  JS
`name.length` is the model string's character count (identical for the ASCII
names used throughout). -/
def formatTestCaseName (name : String) (s : RunnerState) :
    String × RunnerState :=
  if s.test_plan_in_progress != s.passed_in_test_plan then
    let s1 := { s with
      test_plan_in_progress := s.passed_in_test_plan
      test_suite_in_progress := s.passed_in_test_suite }
    (repeatChar '\x08' (name.length + extraChars) ++
      repeatChar ' ' (name.length + extraChars) ++
      "\n" ++ s.passed_in_test_plan ++
      "\n    " ++ s.passed_in_test_suite ++
      "\n        " ++ name ++ " ... ", s1)
  else if s.test_suite_in_progress != s.passed_in_test_suite then
    let s1 := { s with test_suite_in_progress := s.passed_in_test_suite }
    (repeatChar '\x08' (name.length + extraChars) ++
      "    " ++ s.passed_in_test_suite ++
      repeatChar ' ' (name.length + extraChars) ++
      "\n        " ++ name ++ " ... ", s1)
  else
    (repeatChar '\x08' (name.length + extraChars) ++
      "        " ++ name ++ " ... ", s)

/-- Model of `RhumRunner.beforeEach` (src/mod.ts:162-171).  When both cursor scopes are
truthy, writes the suite's `before_each_case_hook`; dereferencing a missing
suite record throws.  Plan truthy and suite falsy writes the plan-level slot.
Otherwise the call does nothing. -/
def beforeEach (cb : Func) (s : RunnerState) : Res :=
  if s.passed_in_test_plan != "" && s.passed_in_test_suite != "" then
    match lookupSuite s.plan.suites s.passed_in_test_suite with
    | none => .err "TypeError" s
    | some r =>
      .ok { s with plan := { s.plan with
        suites := setSuite s.plan.suites s.passed_in_test_suite
          { r with before_each_case_hook := some cb } } }
  else if s.passed_in_test_plan != "" && !(s.passed_in_test_suite != "") then
    .ok { s with plan := { s.plan with before_each_suite_hook := some cb } }
  else
    .ok s

/-- Model of `RhumRunner.afterEach` (src/mod.ts:183-192), same routing as
`beforeEach` but targeting the after-each slots. -/
def afterEach (cb : Func) (s : RunnerState) : Res :=
  if s.passed_in_test_plan != "" && s.passed_in_test_suite != "" then
    match lookupSuite s.plan.suites s.passed_in_test_suite with
    | none => .err "TypeError" s
    | some r =>
      .ok { s with plan := { s.plan with
        suites := setSuite s.plan.suites s.passed_in_test_suite
          { r with after_each_case_hook := some cb } } }
  else if s.passed_in_test_plan != "" && !(s.passed_in_test_suite != "") then
    .ok { s with plan := { s.plan with after_each_suite_hook := some cb } }
  else
    .ok s

/-- Model of `RhumRunner.afterAll` (src/mod.ts:204-213). -/
def afterAll (cb : Func) (s : RunnerState) : Res :=
  if s.passed_in_test_plan != "" && s.passed_in_test_suite != "" then
    match lookupSuite s.plan.suites s.passed_in_test_suite with
    | none => .err "TypeError" s
    | some r =>
      .ok { s with plan := { s.plan with
        suites := setSuite s.plan.suites s.passed_in_test_suite
          { r with after_all_case_hook := some cb } } }
  else if s.passed_in_test_plan != "" && !(s.passed_in_test_suite != "") then
    .ok { s with plan := { s.plan with after_all_suite_hook := some cb } }
  else
    .ok s

/-- Model of `RhumRunner.beforeAll` (src/mod.ts:225-234). -/
def beforeAll (cb : Func) (s : RunnerState) : Res :=
  if s.passed_in_test_plan != "" && s.passed_in_test_suite != "" then
    match lookupSuite s.plan.suites s.passed_in_test_suite with
    | none => .err "TypeError" s
    | some r =>
      .ok { s with plan := { s.plan with
        suites := setSuite s.plan.suites s.passed_in_test_suite
          { r with before_all_case_hook := some cb } } }
  else if s.passed_in_test_plan != "" && !(s.passed_in_test_suite != "") then
    .ok { s with plan := { s.plan with before_all_suite_hook := some cb } }
  else
    .ok s

/-- Model of `RhumRunner.testCase` (src/mod.ts:274-283).  JS evaluates the member
chain `this.plan.suites[this.passed_in_test_suite].cases.push` before the
argument object, so when the suite record is `undefined` the `TypeError`
fires before `formatTestCaseName` runs and no field of the object is
mutated.  When the record exists, `formatTestCaseName` updates the
`..._in_progress` fields and the new case is appended. -/
def testCase (name : String) (testFn : Func) (s : RunnerState) : Res :=
  match lookupSuite s.plan.suites s.passed_in_test_suite with
  | none => .err "TypeError" s
  | some r =>
    let p := formatTestCaseName name s
    .ok { p.2 with plan := { p.2.plan with
      suites := setSuite p.2.plan.suites p.2.passed_in_test_suite
        { r with cases := r.cases ++
            [{ name := name, new_name := p.1, testFn := testFn }] } } }

/-- Model of `RhumRunner.testPlan` (src/mod.ts:296-300): clears the cursor's suite
scope, sets the plan scope to `name`, then synchronously invokes the body on
the resulting state.  Nothing else is touched: in particular the `plan`
document is NOT reset. -/
def testPlan (name : String) (body : RunnerState → Res) (s : RunnerState) :
    Res :=
  body { s with passed_in_test_suite := "", passed_in_test_plan := name }

/-- The fresh suite record created at src/mod.ts:315-321. -/
def freshSuite : SuiteRecord :=
  { cases := []
    after_all_case_hook := none
    after_each_case_hook := none
    before_all_case_hook := none
    before_each_case_hook := none }

/-- Model of `RhumRunner.testSuite` (src/mod.ts:313-323): sets the cursor's suite
scope to `name`, overwrites `suites[name]` with a fresh record, then
synchronously invokes the body.  Note it does not clear the suite scope when
the body returns. -/
def testSuite (name : String) (body : RunnerState → Res) (s : RunnerState) :
    Res :=
  body { s with
    passed_in_test_suite := name
    plan := { s.plan with suites := setSuite s.plan.suites name freshSuite } }

/-- A registration program: the sequence of DSL calls an author makes.  Plan
and suite bodies are nested programs, matching the synchronous nested-call
structure of the DSL. -/
inductive Cmd where
  | planCmd (name : String) (body : List Cmd)
  | suiteCmd (name : String) (body : List Cmd)
  | caseCmd (name : String) (testFn : Func)
  | beforeAllCmd (cb : Func)
  | beforeEachCmd (cb : Func)
  | afterEachCmd (cb : Func)
  | afterAllCmd (cb : Func)
deriving Repr

mutual

/-- Interpret one DSL call on a state; a thrown exception aborts the rest of
the enclosing body, as in JS. -/
def exec : Cmd → RunnerState → Res
  | .planCmd name body, s => testPlan name (execList body) s
  | .suiteCmd name body, s => testSuite name (execList body) s
  | .caseCmd name f, s => testCase name f s
  | .beforeAllCmd cb, s => beforeAll cb s
  | .beforeEachCmd cb, s => beforeEach cb s
  | .afterEachCmd cb, s => afterEach cb s
  | .afterAllCmd cb, s => afterAll cb s

/-- Interpret a body: run calls left to right, stopping at a throw. -/
def execList : List Cmd → RunnerState → Res
  | [], s => .ok s
  | c :: cs, s =>
    match exec c s with
    | .ok s1 => execList cs s1
    | .err m s1 => .err m s1

end

/-- An observable step of the execution engine: invoking a hook callback or
handing a test function to the host runner. -/
inductive Ev where
  | hook (f : Func)
  | test (f : Func)
deriving DecidableEq, Repr

/-- Modelled from the spec: running one optional hook slot.  A set hook is
invoked; "a hook left unset is simply skipped — no no-op function is
invoked" (spec section 8), so an empty slot contributes no event at all. -/
def execHook : Option Func → List Ev
  | none => []
  | some f => [.hook f]

/-- Modelled from the spec: the per-suite case loop of the execution engine
(spec section 4.2, ordering-table row 4).  The engine class `TestCase`
(src/test_case.ts) is not part of the sources provided, so this follows the
spec's ordering table: for each case in declaration order, suite beforeEach,
the case's testFn, suite afterEach. -/
def runCases (r : SuiteRecord) : List CaseRecord → List Ev
  | [] => []
  | c :: cs =>
    execHook r.before_each_case_hook ++ [.test c.testFn] ++
      execHook r.after_each_case_hook ++ runCases r cs

/-- Modelled from the spec: the suite loop of the execution engine (spec
section 4.2, ordering-table rows 2-6), `TestCase` (src/test_case.ts) not
being under the provided sources.  For each suite in declaration order: plan
beforeEach, suite beforeAll, the case loop, suite afterAll, plan afterEach. -/
def runSuites (p : IPlan) : List (String × SuiteRecord) → List Ev
  | [] => []
  | e :: rest =>
    execHook p.before_each_suite_hook ++
      execHook e.2.before_all_case_hook ++
      runCases e.2 e.2.cases ++
      execHook e.2.after_all_case_hook ++
      execHook p.after_each_suite_hook ++
      runSuites p rest

/-- Modelled from the spec: `RhumRunner.run` (src/mod.ts:328-331) hands the
plan document to the engine; the engine (spec section 4.2 ordering table,
rows 1 and 7) brackets the suite loop with plan beforeAll and plan
afterAll. -/
def runPlan (p : IPlan) : List Ev :=
  execHook p.before_all_suite_hook ++ runSuites p p.suites ++
    execHook p.after_all_suite_hook

/-- The event sequence claimed by the spec, transcribed as one flat formula:
plan beforeAll, then for each suite i in declaration order, plan beforeEach,
Si beforeAll, for each case (Si beforeEach, testFn, Si afterEach), Si
afterAll, plan afterEach, and finally plan afterAll, skipping unset hooks. -/
def claimedOrder (p : IPlan) : List Ev :=
  execHook p.before_all_suite_hook ++
    (p.suites.flatMap (fun e =>
      execHook p.before_each_suite_hook ++
        execHook e.2.before_all_case_hook ++
        (e.2.cases.flatMap (fun c =>
          execHook e.2.before_each_case_hook ++ [.test c.testFn] ++
            execHook e.2.after_each_case_hook)) ++
        execHook e.2.after_all_case_hook ++
        execHook p.after_each_suite_hook)) ++
    execHook p.after_all_suite_hook

/-- Whether a builder call returned normally. -/
def Res.isOk : Res → Bool
  | .ok _ => true
  | .err _ _ => false

/-- Whether one character list begins with another. -/
def startsWithList : List Char → List Char → Bool
  | [], _ => true
  | _ :: _, [] => false
  | a :: as, b :: bs => a == b && startsWithList as bs

/-- Whether a character list occurs contiguously inside another. -/
def containsList (n : List Char) : List Char → Bool
  | [] => startsWithList n []
  | c :: t => startsWithList n (c :: t) || containsList n t

/-- One `testCase` registration under a given plan/suite cursor: the cursor
is set by the enclosing `testPlan` / `testSuite` calls, then
`formatTestCaseName` runs.  For each registration we record whether the
plan-header branch was taken (src/mod.ts:346), whether a suite header was
printed (taken in both the first and second branch, src/mod.ts:346 and 355),
and the produced display name. -/
def formatTrace :
    List (String × String × String) → RunnerState → List (Bool × Bool × String)
  | [], _ => []
  | t :: rest, s =>
    let s1 := { s with passed_in_test_plan := t.1, passed_in_test_suite := t.2.1 }
    let pf := s1.test_plan_in_progress != t.1
    let sf := pf || (s1.test_suite_in_progress != t.2.1)
    let p := formatTestCaseName t.2.2 s1
    (pf, sf, p.1) :: formatTrace rest p.2

/-- The header-emission pattern the formatter actually follows: a plan header
exactly when the plan name differs from the previous registration's plan
name (initially, from the tracked in-progress name), and a suite header when
the plan header fires or the suite name differs from the previous
registration's suite name. -/
def changeFlags :
    List (String × String × String) → String → String → List (Bool × Bool)
  | [], _, _ => []
  | t :: rest, curP, curS =>
    ((curP != t.1), ((curP != t.1) || (curS != t.2.1))) ::
      changeFlags rest t.1 t.2.1

theorem find_map_update (m : List (String × SuiteRecord)) (k : String)
    (v : SuiteRecord) (h : m.any (fun p => p.1 == k) = true) :
    (m.map (fun p => if p.1 == k then (k, v) else p)).find?
      (fun p => p.1 == k) = some (k, v) := by
  induction m with
  | nil => simp at h
  | cons a t ih =>
    rw [List.map_cons]
    by_cases ha : a.1 = k
    · rw [if_pos (by simp [ha]), List.find?_cons_of_pos _ (by simp)]
    · have ht : t.any (fun p => p.1 == k) = true := by
        simpa [ha] using h
      rw [if_neg (by simp [ha]), List.find?_cons_of_neg _ (by simp [ha])]
      exact ih ht

theorem find_append_new (m : List (String × SuiteRecord)) (k : String)
    (v : SuiteRecord) (h : m.any (fun p => p.1 == k) = false) :
    (m ++ [(k, v)]).find? (fun p => p.1 == k) = some (k, v) := by
  induction m with
  | nil =>
    rw [List.nil_append, List.find?_cons_of_pos _ (by simp)]
  | cons a t ih =>
    have ha : ¬a.1 = k := by
      intro he
      simp [he] at h
    have ht : t.any (fun p => p.1 == k) = false := by
      simpa [ha] using h
    rw [List.cons_append, List.find?_cons_of_neg _ (by simp [ha])]
    exact ih ht

theorem lookupSuite_setSuite_self (m : List (String × SuiteRecord))
    (k : String) (v : SuiteRecord) :
    lookupSuite (setSuite m k v) k = some v := by
  unfold lookupSuite setSuite
  by_cases h : m.any (fun p => p.1 == k) = true
  · rw [if_pos h, find_map_update m k v h]
    rfl
  · have h' : m.any (fun p => p.1 == k) = false :=
      Bool.eq_false_iff.mpr h
    rw [if_neg h, find_append_new m k v h']
    rfl

theorem format_passed_plan (name : String) (s : RunnerState) :
    (formatTestCaseName name s).2.passed_in_test_plan =
      s.passed_in_test_plan := by
  simp only [formatTestCaseName]
  split <;> [skip; split] <;> rfl

theorem format_passed_suite (name : String) (s : RunnerState) :
    (formatTestCaseName name s).2.passed_in_test_suite =
      s.passed_in_test_suite := by
  simp only [formatTestCaseName]
  split <;> [skip; split] <;> rfl

theorem format_progress_plan (name : String) (s : RunnerState) :
    (formatTestCaseName name s).2.test_plan_in_progress =
      s.passed_in_test_plan := by
  simp only [formatTestCaseName]
  split
  · rfl
  · next h =>
    have he : s.test_plan_in_progress = s.passed_in_test_plan := by
      simpa using h
    split <;> simp [he]

theorem format_progress_suite (name : String) (s : RunnerState) :
    (formatTestCaseName name s).2.test_suite_in_progress =
      s.passed_in_test_suite := by
  simp only [formatTestCaseName]
  split
  · rfl
  · split
    · rfl
    · next h =>
      have he : s.test_suite_in_progress = s.passed_in_test_suite := by
        simpa using h
      simp [he]

theorem runCases_eq (r : SuiteRecord) (l : List CaseRecord) :
    runCases r l = l.flatMap (fun c =>
      execHook r.before_each_case_hook ++ [.test c.testFn] ++
        execHook r.after_each_case_hook) := by
  induction l with
  | nil => rfl
  | cons c cs ih => simp [runCases, ih]

theorem runSuites_eq (p : IPlan) (l : List (String × SuiteRecord)) :
    runSuites p l = l.flatMap (fun e =>
      execHook p.before_each_suite_hook ++
        execHook e.2.before_all_case_hook ++
        runCases e.2 e.2.cases ++
        execHook e.2.after_all_case_hook ++
        execHook p.after_each_suite_hook) := by
  induction l with
  | nil => rfl
  | cons e rest ih => simp [runSuites, ih]

/-- C1: for every plan with at least one suite, the engine's trace is exactly
plan beforeAll, then per suite in declaration order plan beforeEach, suite
beforeAll, per case (suite beforeEach, testFn, suite afterEach), suite
afterAll, plan afterEach, and finally plan afterAll; `execHook none = []`,
so an unset hook contributes no event and no substitute is invoked. -/
theorem C1_run_order (p : IPlan) (h : p.suites ≠ []) :
    runPlan p = claimedOrder p := by
  simp [runPlan, claimedOrder, runSuites_eq, runCases_eq]

/-- A concrete two-suite plan with a mix of set and unset hooks. -/
def wPlan : IPlan :=
  { suites :=
      [("S1",
        { cases := [⟨"c1", "d1", 11⟩, ⟨"c2", "d2", 12⟩]
          after_all_case_hook := none
          after_each_case_hook := some 22
          before_all_case_hook := some 23
          before_each_case_hook := none }),
       ("S2", freshSuite)]
    after_all_suite_hook := some 1
    after_each_suite_hook := none
    before_all_suite_hook := some 2
    before_each_suite_hook := some 3 }

theorem C1_run_order_witness :
    wPlan.suites ≠ [] ∧ runPlan wPlan = claimedOrder wPlan :=
  ⟨by decide, C1_run_order wPlan (by decide)⟩

/-- The state `testPlan name body` invokes its body on (src/mod.ts:297-299):
suite scope cleared, plan scope set, everything else untouched. -/
def planEntry (name : String) (s : RunnerState) : RunnerState :=
  { s with passed_in_test_suite := "", passed_in_test_plan := name }

/-- C2 (amended): `testPlan` resets only the registration cursor — it clears
the suite scope and sets the plan scope — and invokes the body on a state
whose plan document is exactly the previous one: neither the suites map nor
any plan-level hook slot is cleared. -/
theorem C2_testPlan_carries_over (name : String) (body : RunnerState → Res)
    (s : RunnerState) :
    testPlan name body s = body (planEntry name s) ∧
    (planEntry name s).plan = s.plan ∧
    (planEntry name s).passed_in_test_suite = "" ∧
    (planEntry name s).passed_in_test_plan = name :=
  ⟨rfl, rfl, rfl, rfl⟩

/-- A plan body registering a plan-level beforeAll hook and a suite with one
case, followed by a second, empty plan registration. -/
def c2prog : List Cmd :=
  [.planCmd "P1" [.beforeAllCmd 5, .suiteCmd "S" [.caseCmd "c" 1]],
   .planCmd "P2" []]

/-- C2 counterexample: after `testPlan("P2", ...)` the suite "S" and the
plan-level beforeAll hook registered under the previous plan "P1" are still
present in the plan document, so the document is not cleared. -/
theorem C2_counterexample :
    (lookupSuite (execList c2prog initState).state.plan.suites "S").isSome
        = true ∧
      (execList c2prog initState).state.plan.before_all_suite_hook = some 5 := by
  decide

/-- C4: calling `testCase` while the cursor's suite scope is empty (and no
suite was ever registered under the empty name) throws immediately, and the
state at the throw — plan document, cursor and formatter fields — is exactly
the state before the call: JS evaluates the member chain
`suites[""].cases.push` before the argument object, so even
`formatTestCaseName` never runs. -/
theorem C4_testCase_no_suite (name : String) (f : Func) (s : RunnerState)
    (h1 : s.passed_in_test_suite = "")
    (h2 : lookupSuite s.plan.suites "" = none) :
    testCase name f s = .err "TypeError" s := by
  simp only [testCase, h1, h2]

theorem C4_witness :
    initState.passed_in_test_suite = "" ∧
    testCase "c" 0 initState = .err "TypeError" initState :=
  ⟨rfl, C4_testCase_no_suite "c" 0 initState rfl rfl⟩

/-- The state `testSuite name body` synchronously invokes its body on. -/
def suiteEntry (name : String) (s : RunnerState) : RunnerState :=
  { s with
    passed_in_test_suite := name
    plan := { s.plan with suites := setSuite s.plan.suites name freshSuite } }

/-- C5: re-registering an existing suite name replaces the whole prior record
with a fresh one — empty case list, all four suite-level hook slots null —
whatever the prior record held, and then synchronously invokes the body on
that state. -/
theorem C5_testSuite_overwrites (name : String) (body : RunnerState → Res)
    (s : RunnerState) (r : SuiteRecord)
    (h : lookupSuite s.plan.suites name = some r) :
    testSuite name body s = body (suiteEntry name s) ∧
    lookupSuite (suiteEntry name s).plan.suites name = some freshSuite ∧
    (suiteEntry name s).passed_in_test_suite = name :=
  ⟨rfl, by simp [suiteEntry, lookupSuite_setSuite_self], rfl⟩

/-- A prior suite record with a case and a hook, to be overwritten. -/
def c5prior : SuiteRecord :=
  { freshSuite with
    cases := [⟨"c", "d", 7⟩]
    before_each_case_hook := some 9 }

/-- A builder state already holding suite "S" with record `c5prior`. -/
def c5state : RunnerState :=
  { initState with
    passed_in_test_plan := "P"
    plan := { emptyPlan with suites := [("S", c5prior)] } }

theorem C5_witness :
    lookupSuite c5state.plan.suites "S" = some c5prior ∧
    (testSuite "S" Res.ok c5state = Res.ok (suiteEntry "S" c5state) ∧
     lookupSuite (suiteEntry "S" c5state).plan.suites "S" = some freshSuite ∧
     (suiteEntry "S" c5state).passed_in_test_suite = "S") :=
  ⟨by decide, C5_testSuite_overwrites "S" Res.ok c5state c5prior (by decide)⟩

/-- C6: a hook-registration call made while the cursor's plan scope is empty
returns the state unchanged and raises nothing: with a falsy
`passed_in_test_plan` both branch conditions are false and the method body
falls through. -/
theorem C6_hooks_no_plan_noop (cb : Func) (s : RunnerState)
    (h : s.passed_in_test_plan = "") :
    beforeAll cb s = .ok s ∧ beforeEach cb s = .ok s ∧
    afterEach cb s = .ok s ∧ afterAll cb s = .ok s := by
  refine ⟨?_, ?_, ?_, ?_⟩ <;>
    simp [beforeAll, beforeEach, afterEach, afterAll, h]

theorem C6_witness :
    initState.passed_in_test_plan = "" ∧
    (beforeAll 3 initState = .ok initState ∧
     beforeEach 3 initState = .ok initState ∧
     afterEach 3 initState = .ok initState ∧
     afterAll 3 initState = .ok initState) :=
  ⟨rfl, C6_hooks_no_plan_noop 3 initState rfl⟩

theorem format_plan_doc (name : String) (s : RunnerState) :
    (formatTestCaseName name s).2.plan = s.plan := by
  simp only [formatTestCaseName]
  split <;> [skip; split] <;> rfl

/-- C3 (amended): a hook-registration call made while the cursor's suite
scope is a non-empty string stores the callback in that suite's record —
leaving the plan-level slot alone — and a call made while the suite scope is
empty stores it in the plan-level slot, leaving the suites map alone.  Since
`testSuite` never clears the suite scope when its body returns, a hook
registered in the plan body after a nested suite body has returned still
binds to that suite, not to the plan. -/
theorem C3_hook_scoping (cb : Func) (s : RunnerState) (r : SuiteRecord) :
    (s.passed_in_test_plan ≠ "" → s.passed_in_test_suite ≠ "" →
      lookupSuite s.plan.suites s.passed_in_test_suite = some r →
      (lookupSuite (beforeEach cb s).state.plan.suites s.passed_in_test_suite
          = some { r with before_each_case_hook := some cb } ∧
        (beforeEach cb s).state.plan.before_each_suite_hook
          = s.plan.before_each_suite_hook) ∧
      (lookupSuite (afterEach cb s).state.plan.suites s.passed_in_test_suite
          = some { r with after_each_case_hook := some cb } ∧
        (afterEach cb s).state.plan.after_each_suite_hook
          = s.plan.after_each_suite_hook) ∧
      (lookupSuite (beforeAll cb s).state.plan.suites s.passed_in_test_suite
          = some { r with before_all_case_hook := some cb } ∧
        (beforeAll cb s).state.plan.before_all_suite_hook
          = s.plan.before_all_suite_hook) ∧
      (lookupSuite (afterAll cb s).state.plan.suites s.passed_in_test_suite
          = some { r with after_all_case_hook := some cb } ∧
        (afterAll cb s).state.plan.after_all_suite_hook
          = s.plan.after_all_suite_hook)) ∧
    (s.passed_in_test_plan ≠ "" → s.passed_in_test_suite = "" →
      ((beforeEach cb s).state.plan.before_each_suite_hook = some cb ∧
        (beforeEach cb s).state.plan.suites = s.plan.suites) ∧
      ((afterEach cb s).state.plan.after_each_suite_hook = some cb ∧
        (afterEach cb s).state.plan.suites = s.plan.suites) ∧
      ((beforeAll cb s).state.plan.before_all_suite_hook = some cb ∧
        (beforeAll cb s).state.plan.suites = s.plan.suites) ∧
      ((afterAll cb s).state.plan.after_all_suite_hook = some cb ∧
        (afterAll cb s).state.plan.suites = s.plan.suites)) := by
  constructor
  · intro hp hs hr
    refine ⟨⟨?_, ?_⟩, ⟨?_, ?_⟩, ⟨?_, ?_⟩, ⟨?_, ?_⟩⟩ <;>
      simp [beforeEach, afterEach, beforeAll, afterAll, bne_iff_ne, hp, hs,
        hr, Res.state, lookupSuite_setSuite_self]
  · intro hp hs
    refine ⟨⟨?_, ?_⟩, ⟨?_, ?_⟩, ⟨?_, ?_⟩, ⟨?_, ?_⟩⟩ <;>
      simp [beforeEach, afterEach, beforeAll, afterAll, bne_iff_ne, hp, hs,
        Res.state]

/-- A builder state with plan scope "P" and active suite scope "S" whose
record is `c5prior`. -/
def c3state : RunnerState :=
  { c5state with passed_in_test_suite := "S" }

theorem C3_hook_scoping_witness :
    ((lookupSuite (beforeEach 4 c3state).state.plan.suites "S"
        = some { c5prior with before_each_case_hook := some 4 } ∧
      (beforeEach 4 c3state).state.plan.before_each_suite_hook
        = c3state.plan.before_each_suite_hook) ∧
     (lookupSuite (afterEach 4 c3state).state.plan.suites "S"
        = some { c5prior with after_each_case_hook := some 4 } ∧
      (afterEach 4 c3state).state.plan.after_each_suite_hook
        = c3state.plan.after_each_suite_hook) ∧
     (lookupSuite (beforeAll 4 c3state).state.plan.suites "S"
        = some { c5prior with before_all_case_hook := some 4 } ∧
      (beforeAll 4 c3state).state.plan.before_all_suite_hook
        = c3state.plan.before_all_suite_hook) ∧
     (lookupSuite (afterAll 4 c3state).state.plan.suites "S"
        = some { c5prior with after_all_case_hook := some 4 } ∧
      (afterAll 4 c3state).state.plan.after_all_suite_hook
        = c3state.plan.after_all_suite_hook)) ∧
    ((beforeEach 4 c5state).state.plan.before_each_suite_hook = some 4 ∧
      (beforeEach 4 c5state).state.plan.suites = c5state.plan.suites) ∧
    ((afterEach 4 c5state).state.plan.after_each_suite_hook = some 4 ∧
      (afterEach 4 c5state).state.plan.suites = c5state.plan.suites) ∧
    ((beforeAll 4 c5state).state.plan.before_all_suite_hook = some 4 ∧
      (beforeAll 4 c5state).state.plan.suites = c5state.plan.suites) ∧
    ((afterAll 4 c5state).state.plan.after_all_suite_hook = some 4 ∧
      (afterAll 4 c5state).state.plan.suites = c5state.plan.suites) :=
  ⟨(C3_hook_scoping 4 c3state c5prior).1 (by decide) (by decide) (by decide),
   (C3_hook_scoping 4 c5state c5prior).2 (by decide) rfl⟩

/-- A plan whose body opens and closes a suite "S" and only then registers a
beforeEach hook, back at plan level. -/
def c3prog : List Cmd :=
  [.planCmd "P" [.suiteCmd "S" [], .beforeEachCmd 7]]

/-- C3 counterexample: the beforeEach registered in the plan body after the
suite body of "S" has returned lands in suite "S"'s
`before_each_case_hook`, and the plan-level `before_each_suite_hook` stays
null — the opposite of the claim's "binds to the plan, not to that
suite". -/
theorem C3_counterexample :
    (execList c3prog initState).state.plan.before_each_suite_hook = none ∧
    (lookupSuite (execList c3prog initState).state.plan.suites "S").map
        (fun r => r.before_each_case_hook) = some (some 7) := by
  decide

/-- C7 (amended): over any sequence of case registrations, the formatter
takes the plan-header branch exactly at registrations whose plan name
differs from the previous registration's plan name (initially, from the
tracked in-progress name), and prints a suite header exactly when the
plan-header branch fires or the suite name differs from the previous
registration's suite name — i.e. once per contiguous run of a name, not
once per distinct name. -/
theorem C7_header_on_change (seq : List (String × String × String))
    (s : RunnerState) :
    (formatTrace seq s).map (fun x => (x.1, x.2.1)) =
      changeFlags seq s.test_plan_in_progress s.test_suite_in_progress := by
  induction seq generalizing s with
  | nil => rfl
  | cons t rest ih =>
    simp only [formatTrace, changeFlags, List.map_cons]
    refine congrArg₂ List.cons rfl ?_
    rw [ih, format_progress_plan, format_progress_suite]

/-- Three registrations whose plan names recur non-adjacently: P, Q, P. -/
def c7seq : List (String × String × String) :=
  [("P", "S", "c"), ("Q", "S", "c"), ("P", "S", "c")]

/-- C7 counterexample: plan name "P" is a single distinct plan name, yet the
plan header line for "P" is printed in two of the three display names,
because the formatter only compares against the previous plan name; headers
recur when a name recurs non-adjacently. -/
theorem C7_counterexample :
    ((formatTrace c7seq initState).countP
        (fun x => containsList ("\nP\n").data x.2.2.data)) = 2 := by
  decide

/-- C8: registration captures functions by reference: the `testFn` stored in
the appended case record is the very argument of `testCase`, and the
callback stored in a hook slot — suite-level or plan-level — is the very
argument of the hook-registration call; nothing is wrapped or cloned. -/
theorem C8_stores_exact_function (name : String) (f cb : Func)
    (s : RunnerState) (r : SuiteRecord) :
    (lookupSuite s.plan.suites s.passed_in_test_suite = some r →
      (lookupSuite (testCase name f s).state.plan.suites
          s.passed_in_test_suite).map (fun s' => s'.cases.map CaseRecord.testFn)
        = some (r.cases.map CaseRecord.testFn ++ [f])) ∧
    (s.passed_in_test_plan ≠ "" → s.passed_in_test_suite ≠ "" →
      lookupSuite s.plan.suites s.passed_in_test_suite = some r →
      (lookupSuite (beforeEach cb s).state.plan.suites
          s.passed_in_test_suite).map (fun s' => s'.before_each_case_hook)
        = some (some cb) ∧
      (lookupSuite (afterEach cb s).state.plan.suites
          s.passed_in_test_suite).map (fun s' => s'.after_each_case_hook)
        = some (some cb) ∧
      (lookupSuite (beforeAll cb s).state.plan.suites
          s.passed_in_test_suite).map (fun s' => s'.before_all_case_hook)
        = some (some cb) ∧
      (lookupSuite (afterAll cb s).state.plan.suites
          s.passed_in_test_suite).map (fun s' => s'.after_all_case_hook)
        = some (some cb)) ∧
    (s.passed_in_test_plan ≠ "" → s.passed_in_test_suite = "" →
      (beforeEach cb s).state.plan.before_each_suite_hook = some cb ∧
      (afterEach cb s).state.plan.after_each_suite_hook = some cb ∧
      (beforeAll cb s).state.plan.before_all_suite_hook = some cb ∧
      (afterAll cb s).state.plan.after_all_suite_hook = some cb) := by
  refine ⟨?_, ?_, ?_⟩
  · intro hr
    have hsuite := format_passed_suite name s
    have hplan := format_plan_doc name s
    simp [testCase, hr, Res.state, hsuite, hplan, lookupSuite_setSuite_self]
  · intro hp hs hr
    refine ⟨?_, ?_, ?_, ?_⟩ <;>
      simp [beforeEach, afterEach, beforeAll, afterAll, bne_iff_ne, hp, hs,
        hr, Res.state, lookupSuite_setSuite_self]
  · intro hp hs
    refine ⟨?_, ?_, ?_, ?_⟩ <;>
      simp [beforeEach, afterEach, beforeAll, afterAll, bne_iff_ne, hp, hs,
        Res.state]

theorem C8_stores_exact_function_witness :
    (lookupSuite (testCase "c2" 42 c3state).state.plan.suites "S").map
        (fun s' => s'.cases.map CaseRecord.testFn) = some [7, 42] ∧
    ((lookupSuite (beforeEach 4 c3state).state.plan.suites "S").map
        (fun s' => s'.before_each_case_hook) = some (some 4) ∧
      (lookupSuite (afterEach 4 c3state).state.plan.suites "S").map
        (fun s' => s'.after_each_case_hook) = some (some 4) ∧
      (lookupSuite (beforeAll 4 c3state).state.plan.suites "S").map
        (fun s' => s'.before_all_case_hook) = some (some 4) ∧
      (lookupSuite (afterAll 4 c3state).state.plan.suites "S").map
        (fun s' => s'.after_all_case_hook) = some (some 4)) ∧
    ((beforeEach 4 c5state).state.plan.before_each_suite_hook = some 4 ∧
      (afterEach 4 c5state).state.plan.after_each_suite_hook = some 4 ∧
      (beforeAll 4 c5state).state.plan.before_all_suite_hook = some 4 ∧
      (afterAll 4 c5state).state.plan.after_all_suite_hook = some 4) :=
  ⟨(C8_stores_exact_function "c2" 42 4 c3state c5prior).1 (by decide),
   (C8_stores_exact_function "c2" 42 4 c3state c5prior).2.1 (by decide)
     (by decide) (by decide),
   (C8_stores_exact_function "c2" 42 4 c5state c5prior).2.2 (by decide) rfl⟩

/-- C9: each hook slot holds at most one callback — a second registration of
the same hook kind in the same scope overwrites the first, at suite level
(two calls inside one suite body) and at plan level (two calls at plan
scope) alike; only the last callback remains. -/
theorem C9_last_hook_wins (cb1 cb2 : Func) (s : RunnerState) (r : SuiteRecord)
    (hp : s.passed_in_test_plan ≠ "") :
    (s.passed_in_test_suite ≠ "" →
      lookupSuite s.plan.suites s.passed_in_test_suite = some r →
      (lookupSuite (beforeEach cb2 (beforeEach cb1 s).state).state.plan.suites
          s.passed_in_test_suite).map (fun s' => s'.before_each_case_hook)
        = some (some cb2) ∧
      (lookupSuite (afterEach cb2 (afterEach cb1 s).state).state.plan.suites
          s.passed_in_test_suite).map (fun s' => s'.after_each_case_hook)
        = some (some cb2) ∧
      (lookupSuite (beforeAll cb2 (beforeAll cb1 s).state).state.plan.suites
          s.passed_in_test_suite).map (fun s' => s'.before_all_case_hook)
        = some (some cb2) ∧
      (lookupSuite (afterAll cb2 (afterAll cb1 s).state).state.plan.suites
          s.passed_in_test_suite).map (fun s' => s'.after_all_case_hook)
        = some (some cb2)) ∧
    (s.passed_in_test_suite = "" →
      (beforeEach cb2 (beforeEach cb1 s).state).state.plan.before_each_suite_hook
        = some cb2 ∧
      (afterEach cb2 (afterEach cb1 s).state).state.plan.after_each_suite_hook
        = some cb2 ∧
      (beforeAll cb2 (beforeAll cb1 s).state).state.plan.before_all_suite_hook
        = some cb2 ∧
      (afterAll cb2 (afterAll cb1 s).state).state.plan.after_all_suite_hook
        = some cb2) := by
  constructor
  · intro hs hr
    refine ⟨?_, ?_, ?_, ?_⟩ <;>
      simp [beforeEach, afterEach, beforeAll, afterAll, bne_iff_ne, hp, hs,
        hr, Res.state, lookupSuite_setSuite_self]
  · intro hs
    refine ⟨?_, ?_, ?_, ?_⟩ <;>
      simp [beforeEach, afterEach, beforeAll, afterAll, bne_iff_ne, hp, hs,
        Res.state]

theorem C9_last_hook_wins_witness :
    ((lookupSuite
        (beforeEach 6 (beforeEach 5 c3state).state).state.plan.suites "S").map
        (fun s' => s'.before_each_case_hook) = some (some 6) ∧
      (lookupSuite
        (afterEach 6 (afterEach 5 c3state).state).state.plan.suites "S").map
        (fun s' => s'.after_each_case_hook) = some (some 6) ∧
      (lookupSuite
        (beforeAll 6 (beforeAll 5 c3state).state).state.plan.suites "S").map
        (fun s' => s'.before_all_case_hook) = some (some 6) ∧
      (lookupSuite
        (afterAll 6 (afterAll 5 c3state).state).state.plan.suites "S").map
        (fun s' => s'.after_all_case_hook) = some (some 6)) ∧
    ((beforeEach 6 (beforeEach 5 c5state).state).state.plan.before_each_suite_hook
        = some 6 ∧
      (afterEach 6 (afterEach 5 c5state).state).state.plan.after_each_suite_hook
        = some 6 ∧
      (beforeAll 6 (beforeAll 5 c5state).state).state.plan.before_all_suite_hook
        = some 6 ∧
      (afterAll 6 (afterAll 5 c5state).state).state.plan.after_all_suite_hook
        = some 6) :=
  ⟨(C9_last_hook_wins 5 6 c3state c5prior (by decide)).1 (by decide)
     (by decide),
   (C9_last_hook_wins 5 6 c5state c5prior (by decide)).2 rfl⟩

/-- The cursor/document invariant: whenever the cursor's suite scope is a
non-empty string, the suites map holds a record under that name. -/
def Inv (s : RunnerState) : Prop :=
  s.passed_in_test_suite ≠ "" →
    (lookupSuite s.plan.suites s.passed_in_test_suite).isSome = true

instance (s : RunnerState) : Decidable (Inv s) := by
  unfold Inv
  infer_instance

theorem inv_beforeEach (cb : Func) (s : RunnerState) (h : Inv s) :
    Inv (beforeEach cb s).state := by
  by_cases hp : s.passed_in_test_plan = ""
  · simpa [beforeEach, hp, Res.state] using h
  · by_cases hs : s.passed_in_test_suite = ""
    · simp [beforeEach, bne_iff_ne, hp, hs, Res.state, Inv]
    · cases hl : lookupSuite s.plan.suites s.passed_in_test_suite with
      | none => simpa [beforeEach, bne_iff_ne, hp, hs, hl, Res.state] using h
      | some r =>
        simp [Inv, beforeEach, bne_iff_ne, hp, hs, hl, Res.state,
          lookupSuite_setSuite_self]

theorem inv_afterEach (cb : Func) (s : RunnerState) (h : Inv s) :
    Inv (afterEach cb s).state := by
  by_cases hp : s.passed_in_test_plan = ""
  · simpa [afterEach, hp, Res.state] using h
  · by_cases hs : s.passed_in_test_suite = ""
    · simp [afterEach, bne_iff_ne, hp, hs, Res.state, Inv]
    · cases hl : lookupSuite s.plan.suites s.passed_in_test_suite with
      | none => simpa [afterEach, bne_iff_ne, hp, hs, hl, Res.state] using h
      | some r =>
        simp [Inv, afterEach, bne_iff_ne, hp, hs, hl, Res.state,
          lookupSuite_setSuite_self]

theorem inv_beforeAll (cb : Func) (s : RunnerState) (h : Inv s) :
    Inv (beforeAll cb s).state := by
  by_cases hp : s.passed_in_test_plan = ""
  · simpa [beforeAll, hp, Res.state] using h
  · by_cases hs : s.passed_in_test_suite = ""
    · simp [beforeAll, bne_iff_ne, hp, hs, Res.state, Inv]
    · cases hl : lookupSuite s.plan.suites s.passed_in_test_suite with
      | none => simpa [beforeAll, bne_iff_ne, hp, hs, hl, Res.state] using h
      | some r =>
        simp [Inv, beforeAll, bne_iff_ne, hp, hs, hl, Res.state,
          lookupSuite_setSuite_self]

theorem inv_afterAll (cb : Func) (s : RunnerState) (h : Inv s) :
    Inv (afterAll cb s).state := by
  by_cases hp : s.passed_in_test_plan = ""
  · simpa [afterAll, hp, Res.state] using h
  · by_cases hs : s.passed_in_test_suite = ""
    · simp [afterAll, bne_iff_ne, hp, hs, Res.state, Inv]
    · cases hl : lookupSuite s.plan.suites s.passed_in_test_suite with
      | none => simpa [afterAll, bne_iff_ne, hp, hs, hl, Res.state] using h
      | some r =>
        simp [Inv, afterAll, bne_iff_ne, hp, hs, hl, Res.state,
          lookupSuite_setSuite_self]

theorem inv_testCase (name : String) (f : Func) (s : RunnerState)
    (h : Inv s) : Inv (testCase name f s).state := by
  cases hl : lookupSuite s.plan.suites s.passed_in_test_suite with
  | none => simpa [testCase, hl, Res.state] using h
  | some r =>
    simp [Inv, testCase, hl, Res.state, format_passed_suite,
      lookupSuite_setSuite_self]

mutual

theorem inv_exec (c : Cmd) (s : RunnerState) (h : Inv s) :
    Inv (exec c s).state := by
  cases c with
  | planCmd name body =>
    simp only [exec, testPlan]
    exact inv_execList body (planEntry name s) (fun hns => absurd rfl hns)
  | suiteCmd name body =>
    simp only [exec, testSuite]
    refine inv_execList body (suiteEntry name s) ?_
    intro hns
    simp [suiteEntry, lookupSuite_setSuite_self]
  | caseCmd name f => exact inv_testCase name f s h
  | beforeAllCmd cb => exact inv_beforeAll cb s h
  | beforeEachCmd cb => exact inv_beforeEach cb s h
  | afterEachCmd cb => exact inv_afterEach cb s h
  | afterAllCmd cb => exact inv_afterAll cb s h

theorem inv_execList (cs : List Cmd) (s : RunnerState) (h : Inv s) :
    Inv (execList cs s).state := by
  cases cs with
  | nil => exact h
  | cons c rest =>
    have hc := inv_exec c s h
    cases he : exec c s with
    | ok s1 =>
      rw [he] at hc
      simpa [execList, he] using inv_execList rest s1 hc
    | err m s1 =>
      rw [he] at hc
      simpa [execList, he] using hc

end

/-- C10: the invariant "an active suite scope always has a record, with its
cases list, in the suites map" holds after any sequence of builder calls
starting from a state satisfying it, and under it `testCase` and the four
hook-registration calls made with an active suite scope return normally —
they never dereference a missing suite record. -/
theorem C10_suite_scope_invariant (cs : List Cmd) (name : String)
    (f cb : Func) (s : RunnerState) (h : Inv s) :
    Inv (execList cs s).state ∧
    (s.passed_in_test_suite ≠ "" →
      (testCase name f s).isOk = true ∧
      (beforeAll cb s).isOk = true ∧ (beforeEach cb s).isOk = true ∧
      (afterEach cb s).isOk = true ∧ (afterAll cb s).isOk = true) := by
  refine ⟨inv_execList cs s h, ?_⟩
  intro hs
  have hsome := h hs
  cases hl : lookupSuite s.plan.suites s.passed_in_test_suite with
  | none => rw [hl] at hsome; simp at hsome
  | some r =>
    by_cases hp : s.passed_in_test_plan = "" <;>
      simp [testCase, beforeAll, beforeEach, afterEach, afterAll,
        bne_iff_ne, hp, hs, hl, Res.isOk]

/-- The state reached after opening plan "P" and suite "S": its suite scope
is active. -/
def c10state : RunnerState :=
  (execList [.planCmd "P" [.suiteCmd "S" []]] initState).state

theorem C10_suite_scope_invariant_witness :
    Inv c10state ∧
    (Inv (execList [.caseCmd "c" 1, .beforeEachCmd 2] c10state).state ∧
     (c10state.passed_in_test_suite ≠ "" →
       (testCase "c" 1 c10state).isOk = true ∧
       (beforeAll 2 c10state).isOk = true ∧
       (beforeEach 2 c10state).isOk = true ∧
       (afterEach 2 c10state).isOk = true ∧
       (afterAll 2 c10state).isOk = true)) :=
  ⟨by decide,
   C10_suite_scope_invariant [.caseCmd "c" 1, .beforeEachCmd 2] "c" 1 2
     c10state (by decide)⟩

end Rhum
